import Mathlib

/-!
Verification of the forecast-aggregation / suitability-scoring utilities of the
AstroCodex weather-planning dashboard.

The Lean definitions below are a shallow embedding of the Python source:

* `parade_suitability_score`, `get_event_suggestion` — `src/utils/scoring.py`
* `process_forecast`, `closest_forecast_day`, `process_forecast_with_fallback`,
  `WEATHER_EMOJI_MAP` — `src/utils/helpers.py`
* `derive_rain_probability` — the `rain_prob` derivation in `src/app.py`

Python floats are modelled as rationals (`ℚ`), Python's `round` (banker's
rounding, round-half-to-even) as `pyRound`, strings as Lean `String` with
list-of-character implementations of the `str` operations the code uses
(`startswith`, `split`, comparison), and Python `dict`s with known key sets
as structures.  A JSON field that may be absent is an `Option`.
-/

/-- Python's `round` on a rational: round half to even (banker's rounding),
returning an integer.  `round(x)` in Python rounds to the nearest integer and
breaks `.5` ties towards the even neighbour. -/
def pyRound (q : ℚ) : ℤ :=
  let f := ⌊q⌋
  let r := q - (f : ℚ)
  if r < 1/2 then f
  else if 1/2 < r then f + 1
  else if f % 2 = 0 then f else f + 1

/-- Lexicographic strict comparison of character lists by code point; this is
exactly Python's `<` on strings (and agrees with Lean's `List.lt` on the
underlying data). -/
def strLtB : List Char → List Char → Bool
  | [], [] => false
  | [], _ :: _ => true
  | _ :: _, [] => false
  | a :: as, b :: bs =>
    if a.toNat < b.toNat then true
    else if b.toNat < a.toNat then false
    else strLtB as bs

/-- Non-strict string comparison used for ascending sorting (`a ≤ b` iff
`¬ b < a`). -/
def strLeB (a b : String) : Bool := ! strLtB b.data a.data

/-- Python's `s.startswith(pre)`. -/
def pyStartsWith (s pre : String) : Bool := List.isPrefixOf pre.data s.data

/-- Python's `s.split()[0]` for the datetime strings handled by the code: the
maximal leading run of non-space characters. -/
def pyDateToken (s : String) : String := ⟨s.data.takeWhile (fun c => c ≠ ' ')⟩

/-! ## Scoring (`src/utils/scoring.py`) -/

/-- The `forecast` dict consumed by the scorer and the suggestion selector:
keys `rain_probability`, `temp`, `humidity`, `wind_speed`. -/
structure ForecastInput where
  rain_probability : ℚ
  temp : ℚ
  humidity : ℚ
  wind_speed : ℚ
deriving DecidableEq

/-- The `historical` dict consumed by the scorer: keys `avg_rainfall_mm`,
`avg_temp_c`. -/
structure HistoricalInput where
  avg_rainfall_mm : ℚ
  avg_temp_c : ℚ
deriving DecidableEq

/-- The dict returned by `parade_suitability_score`: integer `score` and
string `message`. -/
structure SuitabilityResult where
  score : ℤ
  message : String
deriving DecidableEq

/-- Embedding of `parade_suitability_score` (src/utils/scoring.py, lines 5-42). -/
def parade_suitability_score (forecast : ForecastInput) (historical : HistoricalInput) :
    SuitabilityResult :=
  let score0 : ℚ := 100
  let rain_penalty : ℚ := min (forecast.rain_probability * 0.5) 50
  let score1 := score0 - rain_penalty
  let temp_penalty : ℚ :=
    if forecast.temp < 20 then min ((20 - forecast.temp) * 2) 30
    else if forecast.temp > 32 then min ((forecast.temp - 32) * 2) 30
    else 0
  let score2 := score1 - temp_penalty
  let temp_diff : ℚ := |forecast.temp - historical.avg_temp_c|
  let hist_penalty : ℚ := min (temp_diff * 2) 20
  let score3 := score2 - hist_penalty
  let score : ℤ := max 0 (min 100 (pyRound score3))
  let message : String :=
    if score > 70 then "Safe for parade 🎉"
    else if score ≥ 40 then "Caution, keep backup 🌈"
    else "Risky, expect issues ☔"
  { score := score, message := message }

/-- Embedding of `get_event_suggestion` (src/utils/scoring.py, lines 44-56). -/
def get_event_suggestion (forecast : ForecastInput) : String :=
  if forecast.rain_probability > 50 then "Consider indoor backup ☔🎭"
  else if forecast.temp > 35 then "Better for evening/night events 🌙🎤"
  else if forecast.wind_speed > 30 then "Outdoor risky, try indoor 🎪"
  else "Great for outdoor events 🎶🎉"

/-- Embedding of the `rain_prob` derivation in `src/app.py`
(`rain_prob = 90 if weather['total_rain'] > 5 else 70 if weather['total_rain'] > 0 else 0`,
line 235, and the equivalent if/elif/else at lines 370-376). -/
def derive_rain_probability (total_rain : ℚ) : ℚ :=
  if total_rain > 5 then 90
  else if total_rain > 0 then 70
  else 0

/-- The scoring formula in the wording of the specification: subtract from 100 a
rain penalty `min(rain_probability*0.5, 50)`, a temperature-comfort penalty of
`0` inside `[20, 32]` and otherwise twice the distance outside that band capped
at 30, and a historical-deviation penalty `min(2*|temp - avg_temp_c|, 20)`;
clamp the total to `[0, 100]` and round to the nearest integer. -/
def specScore (rain_probability temp avg_temp_c : ℚ) : ℤ :=
  pyRound (max 0 (min 100 (
    100 - min (rain_probability * 0.5) 50
        - (if 20 ≤ temp ∧ temp ≤ 32 then 0
           else min (2 * (if temp < 20 then 20 - temp else temp - 32)) 30)
        - min (2 * |temp - avg_temp_c|) 20)))

/-! ### Basic facts about `pyRound` -/

theorem pyRound_intCast (n : ℤ) : pyRound (n : ℚ) = n := by
  unfold pyRound
  norm_num

theorem pyRound_le (q : ℚ) : pyRound q ≤ ⌊q⌋ + 1 := by
  simp only [pyRound]
  split_ifs <;> omega

theorem le_pyRound (q : ℚ) : ⌊q⌋ ≤ pyRound q := by
  simp only [pyRound]
  split_ifs <;> omega

/-- Rounding commutes with clamping to the integer interval `[0, 100]`. -/
theorem pyRound_clamp (x : ℚ) :
    pyRound (max 0 (min 100 x)) = max 0 (min 100 (pyRound x)) := by
  rcases lt_or_le x 0 with hx | hx
  · have h1 : min (100 : ℚ) x = x := min_eq_right (by linarith)
    have h2 : max (0 : ℚ) x = 0 := max_eq_left hx.le
    have hfl : ⌊x⌋ < 0 := by
      rw [Int.floor_lt]
      exact_mod_cast hx
    have hle : pyRound x ≤ ⌊x⌋ + 1 := pyRound_le x
    have : pyRound (0 : ℚ) = 0 := by
      have := pyRound_intCast 0
      simpa using this
    rw [h1, h2, this]
    omega
  · rcases le_or_lt x 100 with hx2 | hx2
    · have h1 : min (100 : ℚ) x = x := min_eq_right hx2
      have h2 : max (0 : ℚ) x = x := max_eq_right hx
      have hfl0 : 0 ≤ ⌊x⌋ := by
        rw [Int.le_floor]
        exact_mod_cast hx
      have hge : ⌊x⌋ ≤ pyRound x := le_pyRound x
      rw [h1, h2]
      by_cases hf : ⌊x⌋ ≤ 99
      · have hle : pyRound x ≤ ⌊x⌋ + 1 := pyRound_le x
        omega
      · have hfl100 : ⌊x⌋ = 100 := by
          have : ⌊x⌋ ≤ ⌊(100 : ℚ)⌋ := Int.floor_le_floor hx2
          simp at this
          omega
        have hx100 : x = 100 := by
          have := Int.floor_le x
          rw [hfl100] at this
          push_cast at this
          linarith
        subst hx100
        have h100 : pyRound (100 : ℚ) = 100 := by
          have := pyRound_intCast 100
          simpa using this
        omega
    · have h1 : min (100 : ℚ) x = 100 := min_eq_left hx2.le
      have h2 : max (0 : ℚ) (100 : ℚ) = 100 := by norm_num
      have h100 : pyRound (100 : ℚ) = 100 := by
        have := pyRound_intCast 100
        simpa using this
      have hfl : 100 ≤ ⌊x⌋ := by
        rw [Int.le_floor]
        exact_mod_cast hx2.le
      have hge : ⌊x⌋ ≤ pyRound x := le_pyRound x
      rw [h1, h2, h100]
      omega

/-! ### Claims about the scorer and the suggestion selector -/

/-- C1: for every numeric `rain_probability`, `temp` and historical `avg_temp_c`
(and arbitrary humidity / wind / rainfall inputs), `parade_suitability_score`
returns exactly `round(clamp(100 - rain penalty - temperature penalty -
historical penalty, 0, 100))` as stated by the spec (`specScore`); the score is
an integer in `[0, 100]`; the favorable message is returned iff the score
exceeds 70, the cautionary message iff it lies in `[40, 70]`, and the
unfavorable message iff it is below 40; and the concrete input
`rain_probability = 90, temp = 25, avg_temp_c = 25` yields score 55 with the
cautionary message. -/
theorem parade_suitability_score_spec :
    (∀ (f : ForecastInput) (h : HistoricalInput),
      (parade_suitability_score f h).score = specScore f.rain_probability f.temp h.avg_temp_c
      ∧ 0 ≤ (parade_suitability_score f h).score
      ∧ (parade_suitability_score f h).score ≤ 100
      ∧ ((parade_suitability_score f h).message = "Safe for parade 🎉" ↔
          70 < (parade_suitability_score f h).score)
      ∧ ((parade_suitability_score f h).message = "Caution, keep backup 🌈" ↔
          40 ≤ (parade_suitability_score f h).score ∧ (parade_suitability_score f h).score ≤ 70)
      ∧ ((parade_suitability_score f h).message = "Risky, expect issues ☔" ↔
          (parade_suitability_score f h).score < 40))
    ∧ parade_suitability_score ⟨90, 25, 60, 10⟩ ⟨5, 25⟩ = ⟨55, "Caution, keep backup 🌈"⟩ := by
  constructor
  · intro f h
    simp only [parade_suitability_score]
    have htp : (if f.temp < 20 then min ((20 - f.temp) * 2) 30
        else if f.temp > 32 then min ((f.temp - 32) * 2) 30 else 0) =
        (if 20 ≤ f.temp ∧ f.temp ≤ 32 then 0
         else min (2 * (if f.temp < 20 then 20 - f.temp else f.temp - 32)) 30) := by
      by_cases h1 : f.temp < 20
      · have hn : ¬ (20 ≤ f.temp ∧ f.temp ≤ 32) := by
          rintro ⟨ha, _⟩
          linarith
        rw [if_pos h1, if_neg hn, if_pos h1, mul_comm]
      · by_cases h2 : f.temp > 32
        · have hn : ¬ (20 ≤ f.temp ∧ f.temp ≤ 32) := by
            rintro ⟨_, hb⟩
            linarith
          rw [if_neg h1, if_pos h2, if_neg hn, if_neg h1, mul_comm]
        · have hp : 20 ≤ f.temp ∧ f.temp ≤ 32 := ⟨by linarith, by linarith⟩
          rw [if_neg h1, if_neg h2, if_pos hp]
    have hscore : max 0 (min 100 (pyRound (100 - min (f.rain_probability * 0.5) 50 -
        (if f.temp < 20 then min ((20 - f.temp) * 2) 30
         else if f.temp > 32 then min ((f.temp - 32) * 2) 30 else 0) -
        min (|f.temp - h.avg_temp_c| * 2) 20))) =
        specScore f.rain_probability f.temp h.avg_temp_c := by
      rw [specScore, pyRound_clamp, htp, mul_comm |f.temp - h.avg_temp_c| 2]
    clear htp
    set s : ℤ := max 0 (min 100 (pyRound (100 - min (f.rain_probability * 0.5) 50 -
        (if f.temp < 20 then min ((20 - f.temp) * 2) 30
         else if f.temp > 32 then min ((f.temp - 32) * 2) 30 else 0) -
        min (|f.temp - h.avg_temp_c| * 2) 20))) with hsdef
    refine ⟨hscore, by rw [hsdef]; exact le_max_left 0 _,
      by rw [hsdef]; exact max_le (by norm_num) (min_le_left _ _), ?_, ?_, ?_⟩
    · clear hscore
      split_ifs with h1 h2
      · exact ⟨fun _ => h1, fun _ => rfl⟩
      · exact ⟨fun hc => absurd hc (by decide), fun hp => absurd hp h1⟩
      · exact ⟨fun hc => absurd hc (by decide), fun hp => absurd hp h1⟩
    · clear hscore
      split_ifs with h1 h2
      · refine ⟨fun hc => absurd hc (by decide), fun hp => ?_⟩
        omega
      · exact ⟨fun _ => ⟨h2, by omega⟩, fun _ => rfl⟩
      · refine ⟨fun hc => absurd hc (by decide), fun hp => ?_⟩
        omega
    · clear hscore
      split_ifs with h1 h2
      · refine ⟨fun hc => absurd hc (by decide), fun hp => ?_⟩
        omega
      · refine ⟨fun hc => absurd hc (by decide), fun hp => ?_⟩
        omega
      · exact ⟨fun _ => by omega, fun _ => rfl⟩
  · simp only [parade_suitability_score]
    norm_num [pyRound]

/-- C7: `get_event_suggestion` applies its threshold rules in fixed order —
rain probability over 50 returns the indoor-backup string; else temperature
over 35 returns the evening/night string; else wind speed over 30 returns the
indoor-alternative string; else the outdoor string — and in particular
`rain_probability = 60` yields the indoor-backup suggestion for every
temperature and wind speed. -/
theorem get_event_suggestion_spec (f : ForecastInput) :
    (f.rain_probability > 50 → get_event_suggestion f = "Consider indoor backup ☔🎭")
    ∧ (f.rain_probability ≤ 50 → f.temp > 35 →
        get_event_suggestion f = "Better for evening/night events 🌙🎤")
    ∧ (f.rain_probability ≤ 50 → f.temp ≤ 35 → f.wind_speed > 30 →
        get_event_suggestion f = "Outdoor risky, try indoor 🎪")
    ∧ (f.rain_probability ≤ 50 → f.temp ≤ 35 → f.wind_speed ≤ 30 →
        get_event_suggestion f = "Great for outdoor events 🎶🎉")
    ∧ (f.rain_probability = 60 → get_event_suggestion f = "Consider indoor backup ☔🎭") := by
  refine ⟨?_, ?_, ?_, ?_, ?_⟩ <;> intros <;>
    simp only [get_event_suggestion] <;> split_ifs <;> first | rfl | linarith

/-- Witness for C7: at `rain_probability = 60`, `temp = 40`, `wind_speed = 35`
the indoor-backup suggestion is returned (rule order: the rain rule fires even
though the temperature and wind thresholds are also exceeded). -/
theorem get_event_suggestion_spec_witness :
    get_event_suggestion ⟨60, 40, 50, 35⟩ = "Consider indoor backup ☔🎭" :=
  (get_event_suggestion_spec ⟨60, 40, 50, 35⟩).2.2.2.2 rfl

/-- C8: two calls to `parade_suitability_score` whose inputs agree on
`rain_probability`, `temp` and historical data but differ arbitrarily in
humidity and wind speed return identical results — humidity and wind speed are
accepted as inputs but never influence the output. -/
theorem parade_suitability_score_ignores_humidity_wind
    (f₁ f₂ : ForecastInput) (h : HistoricalInput)
    (hrain : f₁.rain_probability = f₂.rain_probability) (htemp : f₁.temp = f₂.temp) :
    parade_suitability_score f₁ h = parade_suitability_score f₂ h := by
  cases f₁
  cases f₂
  cases h
  simp only at hrain htemp
  subst hrain
  subst htemp
  rfl

/-- Witness for C8: inputs agreeing on rain probability 90 and temperature 25
but with humidity 10 vs 99 and wind 5 vs 40 produce the same result. -/
theorem parade_suitability_score_ignores_humidity_wind_witness :
    parade_suitability_score ⟨90, 25, 10, 5⟩ ⟨0, 25⟩ =
      parade_suitability_score ⟨90, 25, 99, 40⟩ ⟨0, 25⟩ :=
  parade_suitability_score_ignores_humidity_wind ⟨90, 25, 10, 5⟩ ⟨90, 25, 99, 40⟩ ⟨0, 25⟩ rfl rfl

/-- C9: the rain-probability value fed to the scorer and suggestion selector is
derived from the aggregate's total precipitation by fixed thresholds and always
lies in `{0, 70, 90}`: it is 0 when `total_rain` is 0, 70 when `total_rain` is
positive and at most 5, and 90 when `total_rain` exceeds 5. -/
theorem derive_rain_probability_spec (total_rain : ℚ) :
    (derive_rain_probability total_rain = 0 ∨ derive_rain_probability total_rain = 70 ∨
      derive_rain_probability total_rain = 90)
    ∧ (total_rain = 0 → derive_rain_probability total_rain = 0)
    ∧ (0 < total_rain → total_rain ≤ 5 → derive_rain_probability total_rain = 70)
    ∧ (5 < total_rain → derive_rain_probability total_rain = 90) := by
  refine ⟨?_, ?_, ?_, ?_⟩ <;>
    simp only [derive_rain_probability] <;> intros <;> split_ifs <;>
      first | tauto | linarith

/-- Witness for C9: totals 0, 3 and 7 mm map to 0, 70 and 90 respectively. -/
theorem derive_rain_probability_spec_witness :
    derive_rain_probability 0 = 0 ∧ derive_rain_probability 3 = 70 ∧
      derive_rain_probability 7 = 90 :=
  ⟨(derive_rain_probability_spec 0).2.1 rfl,
   (derive_rain_probability_spec 3).2.2.1 (by norm_num) (by norm_num),
   (derive_rain_probability_spec 7).2.2.2 (by norm_num)⟩

/-! ## Forecast aggregation (`src/utils/helpers.py`) -/

/-- The `main` block of a forecast point: `temp` and `humidity`. -/
structure MainData where
  temp : ℚ
  humidity : ℚ
deriving DecidableEq

/-- The `wind` block of a forecast point: `speed`. -/
structure WindData where
  speed : ℚ
deriving DecidableEq

/-- One entry of the `weather` list of a forecast point; each of the keys
`main`, `description`, `icon` may be absent (the code reads them with
`.get` and a default). -/
structure WeatherEntry where
  main : Option String
  description : Option String
  icon : Option String
deriving DecidableEq

/-- One 3-hour forecast point of the OpenWeather response: `dt_txt` is the
combined date-time string, `rain3h` is `rain["3h"]` when the `rain` block with
key `"3h"` is present, and `weather` is the (possibly empty) condition list. -/
structure ForecastPoint where
  dt_txt : String
  main : MainData
  wind : WindData
  rain3h : Option ℚ
  weather : List WeatherEntry
deriving DecidableEq

/-- The forecast response consumed by the helpers: the `list` key. -/
structure ForecastData where
  list : List ForecastPoint
deriving DecidableEq

/-- The dict returned by `process_forecast`. -/
structure DailyAggregate where
  avg_temp : ℚ
  avg_humidity : ℚ
  avg_wind : ℚ
  total_rain : ℚ
  condition : String
  condition_emoji : String
  condition_desc : String
  condition_dayphase : String
deriving DecidableEq

/-- Embedding of `WEATHER_EMOJI_MAP` (src/utils/helpers.py, lines 2-34). -/
def WEATHER_EMOJI_MAP : List ((String × String) × String) :=
  [(("Clear", "day"), "☀️"), (("Clear", "night"), "🌕"),
   (("Clouds", "day"), "☁️"), (("Clouds", "night"), "☁️"),
   (("Rain", "day"), "🌧️"), (("Rain", "night"), "🌧️"),
   (("Drizzle", "day"), "🌦️"), (("Drizzle", "night"), "�️"),
   (("Thunderstorm", "day"), "⛈️"), (("Thunderstorm", "night"), "⛈️"),
   (("Snow", "day"), "❄️"), (("Snow", "night"), "❄️"),
   (("Mist", "day"), "🌫️"), (("Mist", "night"), "🌫️"),
   (("Smoke", "day"), "🌫️"), (("Smoke", "night"), "🌫️"),
   (("Haze", "day"), "🌫️"), (("Haze", "night"), "🌫️"),
   (("Dust", "day"), "🌫️"), (("Dust", "night"), "🌫️"),
   (("Fog", "day"), "🌫️"), (("Fog", "night"), "🌫️"),
   (("Sand", "day"), "🌫️"), (("Sand", "night"), "🌫️"),
   (("Ash", "day"), "🌫️"), (("Ash", "night"), "🌫️"),
   (("Squall", "day"), "💨"), (("Squall", "night"), "💨"),
   (("Tornado", "day"), "🌪️"), (("Tornado", "night"), "🌪️")]

/-- `WEATHER_EMOJI_MAP.get((dominant, dayphase), '☀️')`: first matching key, or
the default. -/
def emojiLookup (k : String × String) : String :=
  ((WEATHER_EMOJI_MAP.find? (fun p => p.1 == k)).map (fun p => p.2)).getD "☀️"

/-- The default entry modelling `(f.get('weather') or [{}])[0]` when the
`weather` list is absent or empty: an empty dict. -/
def defaultWeather : WeatherEntry := ⟨none, none, none⟩

/-- The per-point condition detail computed inside `process_forecast`'s loop:
`main = w.get('main', 'Clear')`, `desc = w.get('description', main)`,
day/night from the icon suffix (`is_day = icon.endswith('d') if icon else
True`).  Returns `(main, desc, phase)`. -/
def condOf (f : ForecastPoint) : String × String × String :=
  let w := f.weather.headD defaultWeather
  let m := w.main.getD "Clear"
  let desc := w.description.getD m
  let icon := w.icon.getD ""
  let phase := if icon = "" then "day"
    else if List.isSuffixOf ['d'] icon.data then "day" else "night"
  (m, desc, phase)

/-- Incrementing the count of key `k` in an insertion-ordered association list:
`cond_counts[main] = cond_counts.get(main, 0) + 1` on a Python dict. -/
def bumpCount : List (String × Nat) → String → List (String × Nat)
  | [], k => [(k, 1)]
  | (k', n) :: rest, k =>
    if k' = k then (k', n + 1) :: rest else (k', n) :: bumpCount rest k

/-- The insertion-ordered occurrence counts of the condition labels, as built
by `process_forecast`'s loop over the selected points. -/
def condCounts (mains : List String) : List (String × Nat) := mains.foldl bumpCount []

/-- The sort key used by
`sorted(cond_counts.items(), key=lambda x: (-x[1], x[0]))`: `a` comes strictly
before `b` iff `a` has the larger count, or equal counts and the
lexicographically smaller label. -/
def keyLtB (a b : String × Nat) : Bool :=
  if b.2 < a.2 then true
  else if a.2 = b.2 then strLtB a.1.data b.1.data
  else false

/-- First minimal element under `keyLtB`, scanning left to right — the element
a stable sort by that key would place first. -/
def pickFirstMin : List (String × Nat) → (String × Nat) → (String × Nat)
  | [], best => best
  | x :: xs, best => pickFirstMin xs (if keyLtB x best then x else best)

/-- `sorted(cond_counts.items(), key=lambda x: (-x[1], x[0]))[0][0]` — the
dominant condition label of a non-empty count table. -/
def dominantOf : List (String × Nat) → Option String
  | [] => none
  | x :: xs => some (pickFirstMin xs x).1

/-- Embedding of `process_forecast` (src/utils/helpers.py, lines 36-95). -/
def process_forecast (data : ForecastData) (target_date : String) :
    Option DailyAggregate :=
  let forecasts := data.list.filter (fun f => pyStartsWith f.dt_txt target_date)
  if forecasts.isEmpty then none
  else
    let temps := forecasts.map (fun f => f.main.temp)
    let humidity := forecasts.map (fun f => f.main.humidity)
    let wind := forecasts.map (fun f => f.wind.speed)
    let rain_chances := forecasts.map (fun f => f.rain3h.getD 0)
    let avg_temp := temps.sum / (temps.length : ℚ)
    let avg_humidity := humidity.sum / (humidity.length : ℚ)
    let avg_wind := wind.sum / (wind.length : ℚ)
    let total_rain := rain_chances.sum
    let details := forecasts.map condOf
    let cond_counts := condCounts (details.map (fun t => t.1))
    let dominant := (dominantOf cond_counts).getD "Clear"
    let chosen := (details.find? (fun t => t.1 == dominant)).getD (dominant, dominant, "day")
    some { avg_temp := avg_temp, avg_humidity := avg_humidity, avg_wind := avg_wind,
           total_rain := total_rain, condition := dominant,
           condition_emoji := emojiLookup (dominant, chosen.2.2),
           condition_desc := chosen.2.1, condition_dayphase := chosen.2.2 }

/-! ## Date parsing and the fallback selector (`src/utils/helpers.py`) -/

/-- Python's `s.split('-')`: cut the character list at every `'-'`. -/
def splitOnDash : List Char → List (List Char)
  | [] => [[]]
  | c :: cs =>
    match splitOnDash cs with
    | [] => [[]]
    | p :: ps => if c = '-' then [] :: p :: ps else (c :: p) :: ps

/-- Decimal value of a digit string. -/
def digitsVal (l : List Char) : Nat := l.foldl (fun n c => 10 * n + (c.toNat - 48)) 0

/-- Gregorian leap-year test, as used by Python's `datetime`. -/
def isLeap (y : Nat) : Bool := (y % 4 == 0 && y % 100 != 0) || y % 400 == 0

/-- Number of days of month `m` of year `y`. -/
def daysInMonth (y m : Nat) : Nat :=
  if m = 2 then (if isLeap y then 29 else 28)
  else if m = 4 ∨ m = 6 ∨ m = 9 ∨ m = 11 then 30
  else 31

/-- Model of `datetime.strptime(s, '%Y-%m-%d')`: exactly three dash-separated
fields, the year exactly four digits, month and day one or two digits, with the
month in `[1, 12]`, the day valid for the month, and the year positive;
`none` models the `ValueError` raised on anything else. -/
def parseYMD (s : String) : Option (Nat × Nat × Nat) :=
  match splitOnDash s.data with
  | [ys, ms, ds] =>
    if ys.length = 4 ∧ ys.all Char.isDigit ∧
       1 ≤ ms.length ∧ ms.length ≤ 2 ∧ ms.all Char.isDigit ∧
       1 ≤ ds.length ∧ ds.length ≤ 2 ∧ ds.all Char.isDigit then
      let y := digitsVal ys
      let m := digitsVal ms
      let d := digitsVal ds
      if 1 ≤ y ∧ 1 ≤ m ∧ m ≤ 12 ∧ 1 ≤ d ∧ d ≤ daysInMonth y m then
        some (y, m, d)
      else none
    else none
  | _ => none

/-- Cumulative day count before month `m` in a non-leap year. -/
def daysBeforeMonth (m : Nat) : Nat :=
  List.getD [0, 0, 31, 59, 90, 120, 151, 181, 212, 243, 273, 304, 334] m 0

/-- Python's `date.toordinal()`: days since 0001-01-01, day one being ordinal 1. -/
def toOrdinal (y m d : Nat) : ℤ :=
  365 * ((y : ℤ) - 1) + ((y - 1) / 4 : Nat) - ((y - 1) / 100 : Nat) + ((y - 1) / 400 : Nat)
    + (daysBeforeMonth m : ℤ) + (if 2 < m ∧ (isLeap y : Bool) then 1 else 0) + (d : ℤ)

/-- Parse a date string and convert it to its day ordinal. -/
def parseOrd (s : String) : Option ℤ :=
  (parseYMD s).map (fun t => toOrdinal t.1 t.2.1 t.2.2)

/-- Insert a string into an ascending list. -/
def insertSorted (x : String) : List String → List String
  | [] => [x]
  | y :: ys => if strLeB x y then x :: y :: ys else y :: insertSorted x ys

/-- Ascending insertion sort of strings, modelling Python's `sorted` on a set
of strings (code-point lexicographic order). -/
def sortStrings (l : List String) : List String := l.foldr insertSorted []

/-- The `days` list of `closest_forecast_day`:
`sorted({ item['dt_txt'].split()[0] for item in data['list'] })` — the distinct
date tokens of the data, in ascending order. -/
def daysOf (data : ForecastData) : List String :=
  sortStrings ((data.list.map (fun f => pyDateToken f.dt_txt)).dedup)

/-- `(cur - tgt).total_seconds()` in absolute value, for two midnight dates
given by their ordinals: whole days times 86400. -/
def deltaSeconds (t c : ℤ) : ℤ := |c - t| * 86400

/-- The `for d in days` loop of `closest_forecast_day`: skip unparseable
candidates, keep the first candidate achieving the strictly smallest absolute
time difference (`delta < best_delta` updates). -/
def closestLoop (t : ℤ) : List String → Option (String × ℤ) → Option (String × ℤ)
  | [], best => best
  | d :: ds, best =>
    match parseOrd d with
    | none => closestLoop t ds best
    | some c =>
      let delta := deltaSeconds t c
      match best with
      | none => closestLoop t ds (some (d, delta))
      | some (bd, bdelta) =>
        if delta < bdelta then closestLoop t ds (some (d, delta))
        else closestLoop t ds (some (bd, bdelta))

/-- Embedding of `closest_forecast_day` (src/utils/helpers.py, lines 97-124). -/
def closest_forecast_day (data : ForecastData) (target_date : String) :
    Option String :=
  if data.list.isEmpty then none
  else
    let days := daysOf data
    if target_date ∈ days then some target_date
    else
      match parseOrd target_date with
      | none => none
      | some t => (closestLoop t days none).map (fun p => p.1)

/-- Embedding of `process_forecast_with_fallback` (src/utils/helpers.py,
lines 126-137). -/
def process_forecast_with_fallback (data : ForecastData) (target_date : String) :
    Option DailyAggregate × String × Bool :=
  match process_forecast data target_date with
  | some primary => (some primary, target_date, false)
  | none =>
    match closest_forecast_day data target_date with
    | none => (none, target_date, false)
    | some closest =>
      if closest = target_date then (none, target_date, false)
      else (process_forecast data closest, closest, true)

/-! ### Claims about `process_forecast` -/

/-- `process_forecast` signals "no data" exactly on an empty selection. -/
theorem processForecastNoneIff (data : ForecastData) (target_date : String) :
    process_forecast data target_date = none ↔
      data.list.filter (fun f => pyStartsWith f.dt_txt target_date) = [] := by
  simp only [process_forecast]
  by_cases h : (data.list.filter (fun f => pyStartsWith f.dt_txt target_date)).isEmpty
  · rw [if_pos h]
    rw [List.isEmpty_iff] at h
    simp [h]
  · rw [if_neg h]
    rw [List.isEmpty_iff] at h
    simp [h]

/-- C5: `process_forecast` returns the "no data" signal (`none`) if and only if
no point of the input list matches the target date; an empty selection yields
`none` rather than an exception, and a `DailyAggregate` is never built from
zero matching points. -/
theorem process_forecast_none_iff (data : ForecastData) (target_date : String) :
    process_forecast data target_date = none ↔
      data.list.filter (fun f => pyStartsWith f.dt_txt target_date) = [] :=
  processForecastNoneIff data target_date

/-- C2: whenever at least one point matches the target date,
`process_forecast` returns an aggregate whose `avg_temp`, `avg_humidity` and
`avg_wind` are the arithmetic means of the selected points' temperature,
humidity and wind speed, and whose `total_rain` is the sum of their 3-hour
precipitation values, a point lacking the precipitation field contributing
exactly 0; a single-point selection is the mean of one value as a special
case. -/
theorem process_forecast_averages (data : ForecastData) (target_date : String)
    (h : data.list.filter (fun f => pyStartsWith f.dt_txt target_date) ≠ []) :
    ∃ r, process_forecast data target_date = some r
      ∧ r.avg_temp =
          ((data.list.filter (fun f => pyStartsWith f.dt_txt target_date)).map
            (fun f => f.main.temp)).sum /
          (((data.list.filter (fun f => pyStartsWith f.dt_txt target_date)).length : ℚ))
      ∧ r.avg_humidity =
          ((data.list.filter (fun f => pyStartsWith f.dt_txt target_date)).map
            (fun f => f.main.humidity)).sum /
          (((data.list.filter (fun f => pyStartsWith f.dt_txt target_date)).length : ℚ))
      ∧ r.avg_wind =
          ((data.list.filter (fun f => pyStartsWith f.dt_txt target_date)).map
            (fun f => f.wind.speed)).sum /
          (((data.list.filter (fun f => pyStartsWith f.dt_txt target_date)).length : ℚ))
      ∧ r.total_rain =
          ((data.list.filter (fun f => pyStartsWith f.dt_txt target_date)).map
            (fun f => f.rain3h.getD 0)).sum := by
  have hne : ¬ (data.list.filter (fun f => pyStartsWith f.dt_txt target_date)).isEmpty = true := by
    rw [List.isEmpty_iff]
    exact h
  simp only [process_forecast, if_neg hne]
  exact ⟨_, rfl, by simp, by simp, by simp, rfl⟩

/-! ### Order lemmas for the dominant-condition selection -/

theorem strLtB_irrefl (l : List Char) : strLtB l l = false := by
  induction l with
  | nil => rfl
  | cons a as ih => simp [strLtB, ih]

theorem strLtB_trans : ∀ (a b c : List Char),
    strLtB a b = true → strLtB b c = true → strLtB a c = true
  | [], _ :: _, _ :: _, _, _ => rfl
  | [], [], _, h1, _ => by simp [strLtB] at h1
  | [], _ :: _, [], _, h2 => by simp [strLtB] at h2
  | _ :: _, [], _, h1, _ => by simp [strLtB] at h1
  | _ :: _, _ :: _, [], _, h2 => by simp [strLtB] at h2
  | x :: as, y :: bs, z :: cs, h1, h2 => by
    simp only [strLtB] at h1 h2 ⊢
    by_cases hxy : x.toNat < y.toNat <;> by_cases hyx : y.toNat < x.toNat <;>
      by_cases hyz : y.toNat < z.toNat <;> by_cases hzy : z.toNat < y.toNat <;>
        simp_all <;>
        first
          | omega
          | (left; omega)
          | (right; exact ⟨by omega, strLtB_trans as bs cs h1 h2⟩)

theorem strLtB_conn : ∀ (a b : List Char),
    strLtB a b = false → strLtB b a = false → a = b
  | [], [], _, _ => rfl
  | [], _ :: _, h1, _ => by simp [strLtB] at h1
  | _ :: _, [], _, h2 => by simp [strLtB] at h2
  | x :: as, y :: bs, h1, h2 => by
    simp only [strLtB] at h1 h2
    by_cases hxy : x.toNat < y.toNat
    · rw [if_pos hxy] at h1
      exact absurd h1 (by simp)
    · by_cases hyx : y.toNat < x.toNat
      · rw [if_pos hyx] at h2
        exact absurd h2 (by simp)
      · rw [if_neg hxy, if_neg hyx] at h1
        rw [if_neg hyx, if_neg hxy] at h2
        have hnat : x.toNat = y.toNat := by omega
        have hx : x = y := Char.eq_of_val_eq (UInt32.ext hnat)
        rw [hx, strLtB_conn as bs h1 h2]

theorem keyLtB_irrefl (a : String × Nat) : keyLtB a a = false := by
  simp [keyLtB, strLtB_irrefl]

theorem keyLtB_trans {a b c : String × Nat}
    (h1 : keyLtB a b = true) (h2 : keyLtB b c = true) : keyLtB a c = true := by
  simp only [keyLtB] at h1 h2 ⊢
  by_cases hab : b.2 < a.2
  · by_cases hbc : c.2 < b.2
    · rw [if_pos (show c.2 < a.2 by omega)]
    · rw [if_neg hbc] at h2
      split_ifs at h2 with heq
      rw [if_pos (show c.2 < a.2 by omega)]
  · rw [if_neg hab] at h1
    split_ifs at h1 with heq
    by_cases hbc : c.2 < b.2
    · rw [if_pos (show c.2 < a.2 by omega)]
    · rw [if_neg hbc] at h2
      split_ifs at h2 with heq2
      rw [if_neg (show ¬ c.2 < a.2 by omega), if_pos (show a.2 = c.2 by omega)]
      exact strLtB_trans _ _ _ h1 h2

theorem keyLtB_conn {a b : String × Nat}
    (h1 : keyLtB a b = false) (h2 : keyLtB b a = false) : a = b := by
  simp only [keyLtB] at h1 h2
  by_cases hab : b.2 < a.2
  · rw [if_pos hab] at h1
    exact absurd h1 (by simp)
  · by_cases hba : a.2 < b.2
    · rw [if_pos hba] at h2
      exact absurd h2 (by simp)
    · have heq : a.2 = b.2 := by omega
      rw [if_neg hab, if_pos heq] at h1
      rw [if_neg hba, if_pos heq.symm] at h2
      have hdata : a.1.data = b.1.data := strLtB_conn _ _ h1 h2
      exact Prod.ext (String.ext hdata) heq

theorem keyLtB_neg_trans {x b r : String × Nat}
    (h1 : keyLtB x b = false) (h2 : keyLtB b r = false) : keyLtB x r = false := by
  by_contra hc
  have hxr : keyLtB x r = true := by
    cases hk : keyLtB x r
    · exact absurd hk hc
    · rfl
  by_cases hbx : keyLtB b x = true
  · have := keyLtB_trans hbx hxr
    rw [this] at h2
    exact Bool.true_eq_false.mp h2
  · have hbx' : keyLtB b x = false := by
      cases hk : keyLtB b x
      · rfl
      · exact absurd hk hbx
    have : x = b := keyLtB_conn h1 hbx'
    rw [this] at hxr
    rw [hxr] at h2
    exact Bool.true_eq_false.mp h2

/-- The element picked by `pickFirstMin` is the seed or a list element, and no
candidate (seed included) sorts strictly before it — i.e. it is the first
element of a stable sort by `keyLtB`. -/
theorem pickFirstMin_spec : ∀ (xs : List (String × Nat)) (b : String × Nat),
    (pickFirstMin xs b = b ∨ pickFirstMin xs b ∈ xs)
    ∧ ∀ y, (y = b ∨ y ∈ xs) → keyLtB y (pickFirstMin xs b) = false := by
  intro xs
  induction xs with
  | nil =>
    intro b
    refine ⟨Or.inl rfl, ?_⟩
    intro y hy
    rcases hy with rfl | h
    · exact keyLtB_irrefl y
    · exact absurd h (List.not_mem_nil y)
  | cons x rest ih =>
    intro b
    simp only [pickFirstMin]
    by_cases hx : keyLtB x b = true
    · rw [if_pos hx]
      obtain ⟨hmem, hmin⟩ := ih x
      constructor
      · rcases hmem with h | h
        · rw [h]
          exact Or.inr (List.mem_cons_self x rest)
        · exact Or.inr (List.mem_cons_of_mem x h)
      · intro y hy
        rcases hy with rfl | hy
        · by_contra hc
          have hyt : keyLtB y (pickFirstMin rest x) = true := by
            cases hk : keyLtB y (pickFirstMin rest x)
            · exact absurd hk hc
            · rfl
          have hxr : keyLtB x (pickFirstMin rest x) = true := keyLtB_trans hx hyt
          have := hmin x (Or.inl rfl)
          rw [hxr] at this
          exact Bool.true_eq_false.mp this
        · rcases List.mem_cons.mp hy with rfl | hy
          · exact hmin y (Or.inl rfl)
          · exact hmin y (Or.inr hy)
    · rw [if_neg hx]
      have hx' : keyLtB x b = false := by
        cases hk : keyLtB x b
        · rfl
        · exact absurd hk hx
      obtain ⟨hmem, hmin⟩ := ih b
      constructor
      · rcases hmem with h | h
        · exact Or.inl h
        · exact Or.inr (List.mem_cons_of_mem x h)
      · intro y hy
        rcases hy with rfl | hy
        · exact hmin y (Or.inl rfl)
        · rcases List.mem_cons.mp hy with rfl | hy
          · exact keyLtB_neg_trans hx' (hmin b (Or.inl rfl))
          · exact hmin y (Or.inr hy)

/-! ### The condition-count table -/

/-- Count recorded for key `l` in an association list (`0` when absent). -/
def lookupC : List (String × Nat) → String → Nat
  | [], _ => 0
  | (k, n) :: rest, l => if k = l then n else lookupC rest l

theorem lookupC_bumpCount (acc : List (String × Nat)) (k l : String) :
    lookupC (bumpCount acc k) l = if l = k then lookupC acc l + 1 else lookupC acc l := by
  induction acc with
  | nil =>
    simp only [bumpCount, lookupC]
    by_cases h : l = k
    · rw [if_pos h.symm, if_pos h]
    · rw [if_neg (fun hk => h hk.symm), if_neg h]
  | cons p rest ih =>
    obtain ⟨k', n⟩ := p
    simp only [bumpCount, lookupC]
    by_cases hk : k' = k
    · rw [if_pos hk]
      simp only [lookupC]
      by_cases hl : k' = l
      · rw [if_pos hl, if_pos hl, if_pos (by rw [← hl, hk])]
      · rw [if_neg hl, if_neg hl]
        by_cases h : l = k
        · exact absurd (by rw [hk, ← h]) hl
        · rw [if_neg h]
    · rw [if_neg hk]
      simp only [lookupC]
      by_cases hl : k' = l
      · have h : ¬ l = k := by
          rw [← hl]
          exact fun hc => hk hc
        rw [if_pos hl, if_pos hl, if_neg h]
      · rw [if_neg hl, if_neg hl, ih]

theorem keys_bumpCount (acc : List (String × Nat)) (k : String) :
    (bumpCount acc k).map Prod.fst =
      if k ∈ acc.map Prod.fst then acc.map Prod.fst else acc.map Prod.fst ++ [k] := by
  induction acc with
  | nil => simp [bumpCount]
  | cons p rest ih =>
    obtain ⟨k', n⟩ := p
    simp only [bumpCount, List.map_cons]
    by_cases hk : k' = k
    · rw [if_pos hk]
      rw [if_pos (by simp [hk])]
      simp
    · rw [if_neg hk]
      simp only [List.map_cons, ih]
      by_cases hmem : k ∈ rest.map Prod.fst
      · rw [if_pos hmem, if_pos (by simp [hmem])]
      · rw [if_neg hmem, if_neg (by
          simp only [List.mem_cons]
          push_neg
          exact ⟨fun hc => hk hc.symm, hmem⟩)]
        simp

theorem lookupC_foldl (ms : List String) : ∀ (acc : List (String × Nat)) (l : String),
    lookupC (ms.foldl bumpCount acc) l = lookupC acc l + ms.count l := by
  induction ms with
  | nil => simp [List.count_nil]
  | cons m rest ih =>
    intro acc l
    simp only [List.foldl_cons, ih, lookupC_bumpCount]
    rw [List.count_cons]
    by_cases h : l = m
    · rw [if_pos h, if_pos (by simp [h])]
      omega
    · rw [if_neg h, if_neg (by
        simp only [beq_iff_eq]
        exact fun hc => h hc.symm)]
      omega

theorem keys_foldl_mem (ms : List String) : ∀ (acc : List (String × Nat)) (l : String),
    l ∈ (ms.foldl bumpCount acc).map Prod.fst ↔ l ∈ acc.map Prod.fst ∨ l ∈ ms := by
  induction ms with
  | nil => simp
  | cons m rest ih =>
    intro acc l
    simp only [List.foldl_cons, ih, keys_bumpCount, List.mem_cons]
    by_cases hmem : m ∈ acc.map Prod.fst
    · rw [if_pos hmem]
      constructor
      · rintro (h | h)
        · exact Or.inl h
        · exact Or.inr (Or.inr h)
      · rintro (h | h | h)
        · exact Or.inl h
        · rw [h]
          exact Or.inl hmem
        · exact Or.inr h
    · rw [if_neg hmem]
      simp only [List.mem_append, List.mem_singleton]
      constructor
      · rintro ((h | h) | h)
        · exact Or.inl h
        · exact Or.inr (Or.inl h)
        · exact Or.inr (Or.inr h)
      · rintro (h | h | h)
        · exact Or.inl (Or.inl h)
        · exact Or.inl (Or.inr h)
        · exact Or.inr h

theorem keysNodup_foldl (ms : List String) : ∀ (acc : List (String × Nat)),
    ((acc.map Prod.fst).Nodup) → ((ms.foldl bumpCount acc).map Prod.fst).Nodup := by
  induction ms with
  | nil =>
    intro acc h
    exact h
  | cons m rest ih =>
    intro acc h
    simp only [List.foldl_cons]
    apply ih
    rw [keys_bumpCount]
    by_cases hmem : m ∈ acc.map Prod.fst
    · rw [if_pos hmem]
      exact h
    · rw [if_neg hmem]
      simp [List.nodup_append, h, hmem]

theorem mem_lookupC : ∀ (acc : List (String × Nat)),
    (acc.map Prod.fst).Nodup → ∀ (l : String) (n : Nat),
    ((l, n) ∈ acc ↔ l ∈ acc.map Prod.fst ∧ lookupC acc l = n) := by
  intro acc
  induction acc with
  | nil => simp
  | cons p rest ih =>
    intro hnd l n
    obtain ⟨k, m⟩ := p
    simp only [List.map_cons, List.nodup_cons] at hnd
    obtain ⟨hknot, hndrest⟩ := hnd
    simp only [List.mem_cons, List.map_cons, lookupC, Prod.mk.injEq]
    by_cases hk : k = l
    · subst hk
      rw [if_pos rfl]
      constructor
      · rintro (⟨-, rfl⟩ | h)
        · exact ⟨Or.inl rfl, rfl⟩
        · exact absurd (List.mem_map_of_mem Prod.fst h) hknot
      · rintro ⟨-, rfl⟩
        exact Or.inl ⟨rfl, rfl⟩
    · rw [if_neg hk]
      rw [ih hndrest l n]
      constructor
      · rintro (⟨h, -⟩ | h)
        · exact absurd h.symm hk
        · exact ⟨Or.inr h.1, h.2⟩
      · rintro ⟨hmem, hlk⟩
        rcases hmem with h | h
        · exact absurd h.symm hk
        · exact Or.inr ⟨h, hlk⟩

/-- Every entry of the condition-count table records exactly the number of
occurrences of its label, and its label occurs in the list. -/
theorem condCounts_count (ms : List String) (l : String) (n : Nat)
    (h : (l, n) ∈ condCounts ms) : n = ms.count l ∧ l ∈ ms := by
  have hnd : ((condCounts ms).map Prod.fst).Nodup := keysNodup_foldl ms [] (by simp)
  have hm := (mem_lookupC (condCounts ms) hnd l n).mp h
  have hl : lookupC (condCounts ms) l = ms.count l := by
    have := lookupC_foldl ms [] l
    simpa [lookupC] using this
  have hmem : l ∈ ms := by
    have := (keys_foldl_mem ms [] l).mp hm.1
    simpa using this
  exact ⟨by rw [← hm.2, hl], hmem⟩

/-- Every label of the list occurs in the condition-count table, paired with
its occurrence count. -/
theorem condCounts_mem (ms : List String) (l : String) (h : l ∈ ms) :
    (l, ms.count l) ∈ condCounts ms := by
  have hnd : ((condCounts ms).map Prod.fst).Nodup := keysNodup_foldl ms [] (by simp)
  rw [mem_lookupC (condCounts ms) hnd l (ms.count l)]
  constructor
  · exact (keys_foldl_mem ms [] l).mpr (Or.inr h)
  · have := lookupC_foldl ms [] l
    simpa [lookupC] using this

theorem condCounts_ne_nil (ms : List String) (h : ms ≠ []) : condCounts ms ≠ [] := by
  intro hc
  obtain ⟨m, rest, rfl⟩ := List.exists_cons_of_ne_nil h
  have h2 : m ∈ (condCounts (m :: rest)).map Prod.fst :=
    (keys_foldl_mem (m :: rest) [] m).mpr (Or.inr (List.mem_cons_self m rest))
  rw [hc] at h2
  simp at h2

/-! ### Concrete fixtures for witnesses and examples -/

/-- A forecast point with the given datetime string, condition label, and
numeric fields. -/
def mkPoint (dt cond : String) (t hu w : ℚ) (r : Option ℚ) : ForecastPoint :=
  ⟨dt, ⟨t, hu⟩, ⟨w⟩, r, [⟨some cond, some "sample", some "10d"⟩]⟩

/-- Four points on one date with a 2-2 tie between "Rain" and "Clouds". -/
def exTie : ForecastData :=
  ⟨[mkPoint "2025-01-01 00:00:00" "Rain" 20 50 3 none,
    mkPoint "2025-01-01 03:00:00" "Clouds" 21 55 4 none,
    mkPoint "2025-01-01 06:00:00" "Rain" 22 60 5 none,
    mkPoint "2025-01-01 09:00:00" "Clouds" 23 65 6 none]⟩

/-- Two points on 2025-01-01 and 2025-01-10, the fixture of the spec's
fallback example. -/
def exC4 : ForecastData :=
  ⟨[mkPoint "2025-01-01 12:00:00" "Clear" 20 50 3 none,
    mkPoint "2025-01-10 12:00:00" "Clear" 25 55 4 none]⟩

/-- A data set containing one well-formed date and one date token ("bad") that
does not parse. -/
def cexData : ForecastData :=
  ⟨[mkPoint "2025-01-01 12:00:00" "Clear" 20 50 3 none,
    mkPoint "bad x" "Clear" 25 55 4 none]⟩

/-- Three points, two on the target date (one with a rain field, one without). -/
def wAvgData : ForecastData :=
  ⟨[mkPoint "2025-01-01 00:00:00" "Rain" 20 50 3 (some 2),
    mkPoint "2025-01-01 03:00:00" "Clouds" 22 60 5 none,
    mkPoint "2025-01-02 00:00:00" "Clear" 30 70 7 (some 1)]⟩

/-! ### The dominant-condition claim -/

/-- C3: for every non-empty selection, the condition returned by
`process_forecast` is a label occurring among the selected points whose
occurrence count is maximal, and no distinct label with the same count is
lexicographically smaller (so the lexicographically smallest maximal label is
chosen); and the concrete 2-2 tie between "Clouds" and "Rain" resolves to
"Clouds".  The selection is a pure function of the input, hence deterministic
and reproducible. -/
theorem process_forecast_dominant :
    (∀ (data : ForecastData) (target_date : String),
      data.list.filter (fun f => pyStartsWith f.dt_txt target_date) ≠ [] →
      ∃ r, process_forecast data target_date = some r
        ∧ r.condition ∈ (data.list.filter (fun f => pyStartsWith f.dt_txt target_date)).map
            (fun f => (condOf f).1)
        ∧ (∀ l ∈ (data.list.filter (fun f => pyStartsWith f.dt_txt target_date)).map
              (fun f => (condOf f).1),
            ((data.list.filter (fun f => pyStartsWith f.dt_txt target_date)).map
              (fun f => (condOf f).1)).count l ≤
            ((data.list.filter (fun f => pyStartsWith f.dt_txt target_date)).map
              (fun f => (condOf f).1)).count r.condition)
        ∧ (∀ l ∈ (data.list.filter (fun f => pyStartsWith f.dt_txt target_date)).map
              (fun f => (condOf f).1),
            ((data.list.filter (fun f => pyStartsWith f.dt_txt target_date)).map
              (fun f => (condOf f).1)).count l =
            ((data.list.filter (fun f => pyStartsWith f.dt_txt target_date)).map
              (fun f => (condOf f).1)).count r.condition →
            strLtB l.data r.condition.data = false))
    ∧ (process_forecast exTie "2025-01-01").map (fun r => r.condition) = some "Clouds" := by
  constructor
  · intro data target_date h
    have hne : ¬ (data.list.filter (fun f => pyStartsWith f.dt_txt target_date)).isEmpty = true := by
      rw [List.isEmpty_iff]
      exact h
    simp only [process_forecast, if_neg hne]
    have hmm : ((data.list.filter (fun f => pyStartsWith f.dt_txt target_date)).map condOf).map
        (fun t => t.1) =
        (data.list.filter (fun f => pyStartsWith f.dt_txt target_date)).map
          (fun f => (condOf f).1) := by
      rw [List.map_map]
      rfl
    rw [hmm]
    set mains := (data.list.filter (fun f => pyStartsWith f.dt_txt target_date)).map
      (fun f => (condOf f).1) with hmains
    have hms : mains ≠ [] := by
      rw [hmains]
      simp only [ne_eq, List.map_eq_nil_iff]
      exact h
    obtain ⟨p, ps, hcc⟩ := List.exists_cons_of_ne_nil (condCounts_ne_nil mains hms)
    have hdome : (dominantOf (condCounts mains)).getD "Clear" = (pickFirstMin ps p).1 := by
      rw [hcc]
      rfl
    obtain ⟨hresmem, hresmin⟩ := pickFirstMin_spec ps p
    have hres_in : pickFirstMin ps p ∈ condCounts mains := by
      rw [hcc]
      rcases hresmem with h' | h'
      · rw [h']
        exact List.mem_cons_self p ps
      · exact List.mem_cons_of_mem p h'
    have hcnt : (pickFirstMin ps p).2 = mains.count (pickFirstMin ps p).1 ∧
        (pickFirstMin ps p).1 ∈ mains := by
      apply condCounts_count mains (pickFirstMin ps p).1 (pickFirstMin ps p).2
      rw [Prod.mk.eta]
      exact hres_in
    refine ⟨_, rfl, ?_, ?_, ?_⟩
    · simp only [hdome]
      exact hcnt.2
    · intro l hl
      simp only [hdome]
      have hpair : (l, mains.count l) ∈ condCounts mains := condCounts_mem mains l hl
      have hkey : keyLtB (l, mains.count l) (pickFirstMin ps p) = false := by
        apply hresmin
        rw [hcc] at hpair
        exact List.mem_cons.mp hpair
      simp only [keyLtB] at hkey
      split_ifs at hkey with h1
      · omega
      · omega
    · intro l hl heq
      simp only [hdome] at heq ⊢
      have hpair : (l, mains.count l) ∈ condCounts mains := condCounts_mem mains l hl
      have hkey : keyLtB (l, mains.count l) (pickFirstMin ps p) = false := by
        apply hresmin
        rw [hcc] at hpair
        exact List.mem_cons.mp hpair
      simp only [keyLtB] at hkey
      split_ifs at hkey with h1 h2
      · exact hkey
      · exfalso
        apply h2
        rw [heq, ← hcnt.1]
  · decide

/-- Witness for C2: on `wAvgData` and target "2025-01-01" (two matching
points, one lacking the rain field) the aggregate exists and carries the means
and the rain sum. -/
theorem process_forecast_averages_witness :
    ∃ r, process_forecast wAvgData "2025-01-01" = some r
      ∧ r.avg_temp =
          ((wAvgData.list.filter (fun f => pyStartsWith f.dt_txt "2025-01-01")).map
            (fun f => f.main.temp)).sum /
          (((wAvgData.list.filter (fun f => pyStartsWith f.dt_txt "2025-01-01")).length : ℚ))
      ∧ r.avg_humidity =
          ((wAvgData.list.filter (fun f => pyStartsWith f.dt_txt "2025-01-01")).map
            (fun f => f.main.humidity)).sum /
          (((wAvgData.list.filter (fun f => pyStartsWith f.dt_txt "2025-01-01")).length : ℚ))
      ∧ r.avg_wind =
          ((wAvgData.list.filter (fun f => pyStartsWith f.dt_txt "2025-01-01")).map
            (fun f => f.wind.speed)).sum /
          (((wAvgData.list.filter (fun f => pyStartsWith f.dt_txt "2025-01-01")).length : ℚ))
      ∧ r.total_rain =
          ((wAvgData.list.filter (fun f => pyStartsWith f.dt_txt "2025-01-01")).map
            (fun f => f.rain3h.getD 0)).sum :=
  process_forecast_averages wAvgData "2025-01-01" (by decide)

/-- Witness for C3: the general dominant-condition property instantiated on the
2-2 tie fixture. -/
theorem process_forecast_dominant_witness :
    ∃ r, process_forecast exTie "2025-01-01" = some r
      ∧ r.condition ∈ (exTie.list.filter (fun f => pyStartsWith f.dt_txt "2025-01-01")).map
          (fun f => (condOf f).1)
      ∧ (∀ l ∈ (exTie.list.filter (fun f => pyStartsWith f.dt_txt "2025-01-01")).map
            (fun f => (condOf f).1),
          ((exTie.list.filter (fun f => pyStartsWith f.dt_txt "2025-01-01")).map
            (fun f => (condOf f).1)).count l ≤
          ((exTie.list.filter (fun f => pyStartsWith f.dt_txt "2025-01-01")).map
            (fun f => (condOf f).1)).count r.condition)
      ∧ (∀ l ∈ (exTie.list.filter (fun f => pyStartsWith f.dt_txt "2025-01-01")).map
            (fun f => (condOf f).1),
          ((exTie.list.filter (fun f => pyStartsWith f.dt_txt "2025-01-01")).map
            (fun f => (condOf f).1)).count l =
          ((exTie.list.filter (fun f => pyStartsWith f.dt_txt "2025-01-01")).map
            (fun f => (condOf f).1)).count r.condition →
          strLtB l.data r.condition.data = false) :=
  process_forecast_dominant.1 exTie "2025-01-01" (by decide)

/-! ### Lemmas for the fallback selector -/

/-- The date token of a string is one of its prefixes, so a point always
matches its own date token in `process_forecast`'s filter. -/
theorem pyStartsWith_dateToken (s : String) : pyStartsWith s (pyDateToken s) = true := by
  simp only [pyStartsWith, pyDateToken]
  exact List.isPrefixOf_iff_prefix.mpr ( List.takeWhile_prefix _)

theorem mem_insertSorted (x y : String) : ∀ (l : List String),
    y ∈ insertSorted x l ↔ y = x ∨ y ∈ l := by
  intro l
  induction l with
  | nil => simp [insertSorted]
  | cons z rest ih =>
    simp only [insertSorted]
    by_cases h : strLeB x z = true
    · rw [if_pos h]
      simp
    · rw [if_neg h]
      simp only [List.mem_cons, ih]
      tauto

theorem mem_sortStrings (y : String) : ∀ (l : List String),
    y ∈ sortStrings l ↔ y ∈ l := by
  intro l
  induction l with
  | nil => simp [sortStrings]
  | cons z rest ih =>
    simp only [sortStrings, List.foldr_cons]
    rw [show List.foldr insertSorted [] rest = sortStrings rest from rfl]
    rw [mem_insertSorted, ih]
    simp

theorem daysOf_mem (data : ForecastData) (d : String) :
    d ∈ daysOf data ↔ ∃ f ∈ data.list, pyDateToken f.dt_txt = d := by
  simp only [daysOf]
  rw [mem_sortStrings, List.mem_dedup, List.mem_map]

/-- Absolute time difference (in seconds) between a parsed candidate and the
target ordinal, when the candidate parses. -/
def deltaOf (t : ℤ) (d : String) : Option ℤ := (parseOrd d).map (deltaSeconds t)

/-- Loop invariant of `closestLoop`: after scanning `xs`, the accumulator is
`none` exactly when no scanned candidate parsed; otherwise it holds the first
candidate with the strictly smallest delta, together with that delta. -/
def GoodAcc (t : ℤ) (xs : List String) : Option (String × ℤ) → Prop
  | none => ∀ d ∈ xs, parseOrd d = none
  | some (bd, bdelta) =>
      deltaOf t bd = some bdelta
      ∧ (∃ l1 l2, xs = l1 ++ bd :: l2 ∧
          ∀ d ∈ l1, ∀ del, deltaOf t d = some del → bdelta < del)
      ∧ (∀ d ∈ xs, ∀ del, deltaOf t d = some del → bdelta ≤ del)

theorem GoodAcc_extend_unparseable (t : ℤ) (pre : List String) (acc : Option (String × ℤ))
    (d : String) (hp : parseOrd d = none) (h : GoodAcc t pre acc) :
    GoodAcc t (pre ++ [d]) acc := by
  cases acc with
  | none =>
    intro d' hd'
    rcases List.mem_append.mp hd' with h' | h'
    · exact h d' h'
    · rw [List.mem_singleton.mp h']
      exact hp
  | some p =>
    obtain ⟨bd, bdelta⟩ := p
    obtain ⟨h1, ⟨l1, l2, heq, hl1⟩, hall⟩ := h
    refine ⟨h1, ⟨l1, l2 ++ [d], by rw [heq]; simp, hl1⟩, ?_⟩
    intro d' hd' del hdel
    rcases List.mem_append.mp hd' with h' | h'
    · exact hall d' h' del hdel
    · rw [List.mem_singleton.mp h'] at hdel
      rw [deltaOf, hp] at hdel
      exact absurd hdel (by simp)

theorem GoodAcc_first (t : ℤ) (pre : List String) (d : String) (c : ℤ)
    (hp : parseOrd d = some c) (h : GoodAcc t pre none) :
    GoodAcc t (pre ++ [d]) (some (d, deltaSeconds t c)) := by
  refine ⟨by rw [deltaOf, hp]; rfl, ⟨pre, [], rfl, ?_⟩, ?_⟩
  · intro d' hd' del hdel
    rw [deltaOf, h d' hd'] at hdel
    exact absurd hdel (by simp)
  · intro d' hd' del hdel
    rcases List.mem_append.mp hd' with h' | h'
    · rw [deltaOf, h d' h'] at hdel
      exact absurd hdel (by simp)
    · rw [List.mem_singleton.mp h'] at hdel
      rw [deltaOf, hp] at hdel
      simp at hdel
      omega

theorem GoodAcc_improve (t : ℤ) (pre : List String) (bd : String) (bdelta : ℤ)
    (d : String) (c : ℤ) (hp : parseOrd d = some c)
    (hlt : deltaSeconds t c < bdelta) (h : GoodAcc t pre (some (bd, bdelta))) :
    GoodAcc t (pre ++ [d]) (some (d, deltaSeconds t c)) := by
  obtain ⟨h1, ⟨l1, l2, heq, hl1⟩, hall⟩ := h
  refine ⟨by rw [deltaOf, hp]; rfl, ⟨pre, [], rfl, ?_⟩, ?_⟩
  · intro d' hd' del hdel
    have := hall d' hd' del hdel
    omega
  · intro d' hd' del hdel
    rcases List.mem_append.mp hd' with h' | h'
    · have := hall d' h' del hdel
      omega
    · rw [List.mem_singleton.mp h'] at hdel
      rw [deltaOf, hp] at hdel
      simp at hdel
      omega

theorem GoodAcc_keep (t : ℤ) (pre : List String) (bd : String) (bdelta : ℤ)
    (d : String) (c : ℤ) (hp : parseOrd d = some c)
    (hge : bdelta ≤ deltaSeconds t c) (h : GoodAcc t pre (some (bd, bdelta))) :
    GoodAcc t (pre ++ [d]) (some (bd, bdelta)) := by
  obtain ⟨h1, ⟨l1, l2, heq, hl1⟩, hall⟩ := h
  refine ⟨h1, ⟨l1, l2 ++ [d], by rw [heq]; simp, hl1⟩, ?_⟩
  intro d' hd' del hdel
  rcases List.mem_append.mp hd' with h' | h'
  · exact hall d' h' del hdel
  · rw [List.mem_singleton.mp h'] at hdel
    rw [deltaOf, hp] at hdel
    simp at hdel
    omega

theorem closestLoop_good (t : ℤ) : ∀ (ds pre : List String) (acc : Option (String × ℤ)),
    GoodAcc t pre acc → GoodAcc t (pre ++ ds) (closestLoop t ds acc) := by
  intro ds
  induction ds with
  | nil =>
    intro pre acc h
    rw [List.append_nil]
    exact h
  | cons d rest ih =>
    intro pre acc hacc
    have hsplit : pre ++ d :: rest = (pre ++ [d]) ++ rest := by simp
    rw [hsplit]
    cases hp : parseOrd d with
    | none =>
      have hred : closestLoop t (d :: rest) acc = closestLoop t rest acc := by
        simp only [closestLoop, hp]
      rw [hred]
      exact ih (pre ++ [d]) acc (GoodAcc_extend_unparseable t pre acc d hp hacc)
    | some c =>
      cases acc with
      | none =>
        have hred : closestLoop t (d :: rest) none =
            closestLoop t rest (some (d, deltaSeconds t c)) := by
          simp only [closestLoop, hp]
        rw [hred]
        exact ih (pre ++ [d]) _ (GoodAcc_first t pre d c hp hacc)
      | some p =>
        obtain ⟨bd, bdelta⟩ := p
        by_cases hlt : deltaSeconds t c < bdelta
        · have hred : closestLoop t (d :: rest) (some (bd, bdelta)) =
              closestLoop t rest (some (d, deltaSeconds t c)) := by
            simp only [closestLoop, hp, deltaSeconds]
            rw [if_pos (by simpa [deltaSeconds] using hlt)]
          rw [hred]
          exact ih (pre ++ [d]) _ (GoodAcc_improve t pre bd bdelta d c hp hlt hacc)
        · have hred : closestLoop t (d :: rest) (some (bd, bdelta)) =
              closestLoop t rest (some (bd, bdelta)) := by
            simp only [closestLoop, hp, deltaSeconds]
            rw [if_neg (by simpa [deltaSeconds] using hlt)]
          rw [hred]
          exact ih (pre ++ [d]) _ (GoodAcc_keep t pre bd bdelta d c hp (by omega) hacc)

theorem closestLoop_all_unparseable (t : ℤ) : ∀ (ds : List String)
    (acc : Option (String × ℤ)), (∀ d ∈ ds, parseOrd d = none) →
    closestLoop t ds acc = acc := by
  intro ds
  induction ds with
  | nil =>
    intro acc _
    rfl
  | cons d rest ih =>
    intro acc h
    have hp : parseOrd d = none := h d (List.mem_cons_self d rest)
    have hred : closestLoop t (d :: rest) acc = closestLoop t rest acc := by
      simp only [closestLoop, hp]
    rw [hred]
    exact ih acc (fun d' hd' => h d' (List.mem_cons_of_mem d hd'))

/-- Whenever the fallback selector returns a date, that date is one of the date
tokens of the data. -/
theorem closest_mem_days (data : ForecastData) (target d : String)
    (h : closest_forecast_day data target = some d) : d ∈ daysOf data := by
  simp only [closest_forecast_day] at h
  by_cases he : data.list.isEmpty = true
  · rw [if_pos he] at h
    exact absurd h (by simp)
  · rw [if_neg he] at h
    by_cases ht : target ∈ daysOf data
    · rw [if_pos ht] at h
      obtain rfl : target = d := by simpa using h
      exact ht
    · rw [if_neg ht] at h
      cases hp : parseOrd target with
      | none =>
        rw [hp] at h
        exact absurd h (by simp)
      | some t =>
        have hmap : (closestLoop t (daysOf data) none).map (fun p => p.1) = some d := by
          rw [hp] at h
          exact h
        cases hl : closestLoop t (daysOf data) none with
        | none =>
          rw [hl] at hmap
          exact absurd hmap (by simp)
        | some p =>
          rw [hl] at hmap
          obtain ⟨bd, bdelta⟩ := p
          have hg : GoodAcc t ([] ++ daysOf data) (closestLoop t (daysOf data) none) :=
            closestLoop_good t (daysOf data) [] none
              (fun d' hd' => absurd hd' (List.not_mem_nil d'))
          rw [hl] at hg
          obtain ⟨h1, ⟨l1, l2, heq, hl1⟩, hall⟩ := hg
          simp only [List.nil_append] at heq
          have hbd : bd = d := by simpa using hmap
          rw [heq, ← hbd]
          exact List.mem_append.mpr (Or.inr (List.mem_cons_self _ _))

/-- C4: the fallback selector returns the target date itself whenever some
point carries that exact date token; otherwise, whatever date it returns is
present in the data, parses, achieves the minimal absolute time difference to
the parsed target among all parseable candidate dates, and is the first
candidate with that minimal difference in the (sorted) iteration order; and on
dates 2025-01-01 / 2025-01-10 with target 2025-01-04 it returns 2025-01-01. -/
theorem closest_forecast_day_spec :
    (∀ (data : ForecastData) (target_date : String),
      (∃ f ∈ data.list, pyDateToken f.dt_txt = target_date) →
      closest_forecast_day data target_date = some target_date)
    ∧ (∀ (data : ForecastData) (target_date d : String),
        target_date ∉ daysOf data →
        closest_forecast_day data target_date = some d →
        d ∈ daysOf data ∧
        ∃ t del, parseOrd target_date = some t ∧ deltaOf t d = some del
          ∧ (∀ d' ∈ daysOf data, ∀ del', deltaOf t d' = some del' → del ≤ del')
          ∧ (∃ l1 l2, daysOf data = l1 ++ d :: l2 ∧
              ∀ d' ∈ l1, ∀ del', deltaOf t d' = some del' → del < del'))
    ∧ closest_forecast_day exC4 "2025-01-04" = some "2025-01-01" := by
  refine ⟨?_, ?_, by decide⟩
  · intro data target_date h
    obtain ⟨f, hf, hdt⟩ := h
    have hne : ¬ data.list.isEmpty = true := by
      rw [List.isEmpty_iff]
      exact List.ne_nil_of_mem hf
    have hmem : target_date ∈ daysOf data := (daysOf_mem data target_date).mpr ⟨f, hf, hdt⟩
    simp only [closest_forecast_day, if_neg hne, if_pos hmem]
  · intro data target_date d ht h
    refine ⟨closest_mem_days data target_date d h, ?_⟩
    simp only [closest_forecast_day] at h
    by_cases he : data.list.isEmpty = true
    · rw [if_pos he] at h
      exact absurd h (by simp)
    · rw [if_neg he, if_neg ht] at h
      cases hp : parseOrd target_date with
      | none =>
        rw [hp] at h
        exact absurd h (by simp)
      | some t =>
        have hmap : (closestLoop t (daysOf data) none).map (fun p => p.1) = some d := by
          rw [hp] at h
          exact h
        cases hl : closestLoop t (daysOf data) none with
        | none =>
          rw [hl] at hmap
          exact absurd hmap (by simp)
        | some p =>
          rw [hl] at hmap
          obtain ⟨bd, bdelta⟩ := p
          have hg : GoodAcc t ([] ++ daysOf data) (closestLoop t (daysOf data) none) :=
            closestLoop_good t (daysOf data) [] none
              (fun d' hd' => absurd hd' (List.not_mem_nil d'))
          rw [hl] at hg
          obtain ⟨h1, ⟨l1, l2, heq, hl1⟩, hall⟩ := hg
          simp only [List.nil_append] at heq hall
          have hbd : bd = d := by simpa using hmap
          subst hbd
          exact ⟨t, bdelta, rfl, h1, hall, l1, l2, heq, hl1⟩

/-- Witness for C4: on the two-date fixture the target 2025-01-01 is present
and is returned unchanged. -/
theorem closest_forecast_day_spec_witness :
    closest_forecast_day exC4 "2025-01-01" = some "2025-01-01" :=
  closest_forecast_day_spec.1 exC4 "2025-01-01"
    ⟨mkPoint "2025-01-01 12:00:00" "Clear" 20 50 3 none, by decide, by decide⟩

/-- Counterexample to C6: on data whose date tokens are "2025-01-01" and "bad",
the token "bad" fails to parse, the input is non-empty, and yet
`closest_forecast_day` does not return the "no data" signal — it skips the
unparseable candidate and returns "2025-01-01".  So "returns None exactly when
the input is empty or a date fails to parse" is false: a date fails to parse
here, but the result is not None. -/
theorem closest_forecast_day_cex :
    closest_forecast_day cexData "2025-01-04" = some "2025-01-01"
    ∧ "bad" ∈ daysOf cexData ∧ parseOrd "bad" = none ∧ cexData.list ≠ [] := by
  refine ⟨by decide, by decide, by decide, by decide⟩

/-- C6 (amended): `closest_forecast_day`'s result, whenever it is not the "no
data" signal, is a date token present in the input data; and it returns the
"no data" signal (`none`) exactly when the input is empty, or the target date
is absent from the data's date tokens and either the target fails to parse or
every candidate date token fails to parse (an unparseable candidate is skipped,
not fatal). -/
theorem closest_forecast_day_amended :
    (∀ (data : ForecastData) (target_date d : String),
      closest_forecast_day data target_date = some d →
      ∃ f ∈ data.list, pyDateToken f.dt_txt = d)
    ∧ (∀ (data : ForecastData) (target_date : String),
      closest_forecast_day data target_date = none ↔
        data.list = [] ∨ (target_date ∉ daysOf data ∧
          (parseOrd target_date = none ∨ ∀ d ∈ daysOf data, parseOrd d = none))) := by
  constructor
  · intro data target_date d h
    exact (daysOf_mem data d).mp (closest_mem_days data target_date d h)
  · intro data target_date
    by_cases he : data.list.isEmpty = true
    · rw [List.isEmpty_iff] at he
      simp only [closest_forecast_day]
      rw [if_pos (by rw [List.isEmpty_iff]; exact he)]
      simp [he]
    · have hne : data.list ≠ [] := fun hnil => he (by rw [List.isEmpty_iff]; exact hnil)
      simp only [closest_forecast_day]
      rw [if_neg he]
      by_cases ht : target_date ∈ daysOf data
      · rw [if_pos ht]
        simp [hne, ht]
      · rw [if_neg ht]
        cases hp : parseOrd target_date with
        | none =>
          constructor
          · intro _
            exact Or.inr ⟨ht, Or.inl rfl⟩
          · intro _
            rfl
        | some t =>
          show (closestLoop t (daysOf data) none).map (fun p => p.1) = none ↔ _
          constructor
          · intro h
            have hloop : closestLoop t (daysOf data) none = none := by
              cases hl : closestLoop t (daysOf data) none with
              | none => rfl
              | some p =>
                rw [hl] at h
                exact absurd h (by simp)
            have hg : GoodAcc t ([] ++ daysOf data) (closestLoop t (daysOf data) none) :=
              closestLoop_good t (daysOf data) [] none
                (fun d' hd' => absurd hd' (List.not_mem_nil d'))
            rw [hloop] at hg
            refine Or.inr ⟨ht, Or.inr ?_⟩
            intro d hd
            exact hg d hd
          · intro h
            rcases h with h | ⟨-, h⟩
            · exact absurd h hne
            · rcases h with h | h
              · exact absurd h (by simp)
              · rw [closestLoop_all_unparseable t (daysOf data) none h]
                rfl

/-- Witness for the amended C6: on the counterexample data the returned date
"2025-01-01" is the date token of an actual input point. -/
theorem closest_forecast_day_amended_witness :
    ∃ f ∈ cexData.list, pyDateToken f.dt_txt = "2025-01-01" :=
  closest_forecast_day_amended.1 cexData "2025-01-04" "2025-01-01" (by decide)

/-- C10: whenever `process_forecast_with_fallback` reports a substitution
(`substituted = true`), the returned aggregate is not `none`, the used date
differs from the requested target date and is a date token present in the
input data, and the aggregate is exactly `process_forecast` evaluated at that
used date; whenever `substituted = false`, the used date is the original
target date. -/
theorem process_forecast_with_fallback_spec (data : ForecastData) (target_date : String) :
    (∀ (agg : Option DailyAggregate) (used : String),
      process_forecast_with_fallback data target_date = (agg, used, true) →
      agg ≠ none ∧ used ≠ target_date ∧ (∃ f ∈ data.list, pyDateToken f.dt_txt = used)
        ∧ agg = process_forecast data used)
    ∧ (∀ (agg : Option DailyAggregate) (used : String),
      process_forecast_with_fallback data target_date = (agg, used, false) →
      used = target_date) := by
  constructor
  · intro agg used h
    simp only [process_forecast_with_fallback] at h
    cases hpf : process_forecast data target_date with
    | some primary =>
      have h' : ((some primary : Option DailyAggregate), target_date, false) =
          (agg, used, true) := by
        rw [hpf] at h
        exact h
      exact absurd h' (by simp)
    | none =>
      cases hcl : closest_forecast_day data target_date with
      | none =>
        have h' : ((none : Option DailyAggregate), target_date, false) = (agg, used, true) := by
          rw [hpf, hcl] at h
          exact h
        exact absurd h' (by simp)
      | some closest =>
        have h' : (if closest = target_date
            then ((none : Option DailyAggregate), target_date, false)
            else (process_forecast data closest, closest, true)) = (agg, used, true) := by
          rw [hpf, hcl] at h
          exact h
        by_cases heq : closest = target_date
        · rw [if_pos heq] at h'
          exact absurd h' (by simp)
        · rw [if_neg heq] at h'
          simp only [Prod.mk.injEq] at h'
          obtain ⟨ha, hu, -⟩ := h'
          subst ha
          subst hu
          have hdays : closest ∈ daysOf data := closest_mem_days data target_date closest hcl
          obtain ⟨f, hf, hdt⟩ := (daysOf_mem data closest).mp hdays
          refine ⟨?_, heq, ⟨f, hf, hdt⟩, rfl⟩
          intro hnone
          have hfil := (processForecastNoneIff data closest).mp hnone
          have hmemf : f ∈ data.list.filter (fun g => pyStartsWith g.dt_txt closest) :=
            List.mem_filter.mpr ⟨hf, by rw [← hdt]; exact pyStartsWith_dateToken f.dt_txt⟩
          rw [hfil] at hmemf
          exact absurd hmemf (List.not_mem_nil f)
  · intro agg used h
    simp only [process_forecast_with_fallback] at h
    cases hpf : process_forecast data target_date with
    | some primary =>
      have h' : ((some primary : Option DailyAggregate), target_date, false) =
          (agg, used, false) := by
        rw [hpf] at h
        exact h
      simp only [Prod.mk.injEq] at h'
      exact h'.2.1.symm
    | none =>
      cases hcl : closest_forecast_day data target_date with
      | none =>
        have h' : ((none : Option DailyAggregate), target_date, false) = (agg, used, false) := by
          rw [hpf, hcl] at h
          exact h
        simp only [Prod.mk.injEq] at h'
        exact h'.2.1.symm
      | some closest =>
        have h' : (if closest = target_date
            then ((none : Option DailyAggregate), target_date, false)
            else (process_forecast data closest, closest, true)) = (agg, used, false) := by
          rw [hpf, hcl] at h
          exact h
        by_cases heq : closest = target_date
        · rw [if_pos heq] at h'
          simp only [Prod.mk.injEq] at h'
          exact h'.2.1.symm
        · rw [if_neg heq] at h'
          simp only [Prod.mk.injEq] at h'
          exact absurd h'.2.2 (by simp)

/-- Witness for C10: on the two-date fixture with target 2025-01-04 the
fallback substitutes 2025-01-01, and the reported properties hold there. -/
theorem process_forecast_with_fallback_spec_witness :
    process_forecast exC4 "2025-01-01" ≠ none
    ∧ "2025-01-01" ≠ "2025-01-04"
    ∧ (∃ f ∈ exC4.list, pyDateToken f.dt_txt = "2025-01-01")
    ∧ process_forecast exC4 "2025-01-01" = process_forecast exC4 "2025-01-01" :=
  (process_forecast_with_fallback_spec exC4 "2025-01-04").1
    (process_forecast exC4 "2025-01-01") "2025-01-01" rfl
